import Mathlib

/-!
Verification development for the ollama-app chat client.

The definitions below are a shallow embedding of the TypeScript source:

* `src/utils/storage.ts`    — `StorageManager` (session persistence, stats)
* `src/utils/api.ts`        — `APIManager` (config validation, model-list
  normalization, NDJSON streaming decode)
* `src/features/chat/ChatContext.tsx` — session-state logic
  (`createNewChat`, `switchToChat`, `generateChatTitle`); this is the
  variant imported by `src/app/index.tsx`.

JavaScript strings are embedded as `String` (with character-level
operations carried out on `List Char`), JS `Date` values as `Int` epoch
instants, and the external library primitives `JSON.parse`, `new URL`
and ISO-day formatting as explicit function parameters, since they are
not code of this repository.  Fallible code returns `Except`/`Option`.
-/

namespace OllamaApp

/-! ## Character-list string primitives (JS string methods) -/

/-- JS `String.prototype.split(sep)` for a single-character separator,
on the character-list view of a string.  Like JS `split`, it never
returns an empty array: `split` of `""` is `[""]`. -/
def splitChar (c : Char) : List Char → List (List Char)
  | [] => [[]]
  | a :: rest =>
    if a = c then [] :: splitChar c rest
    else
      match splitChar c rest with
      | [] => [[a]]
      | l :: ls => (a :: l) :: ls

/-- JS `Array.prototype.join(sep)` for a single-character separator. -/
def joinChar (c : Char) : List (List Char) → List Char
  | [] => []
  | [l] => l
  | l :: ls => l ++ c :: joinChar c ls

/-- ASCII whitespace test used to model JS `trim` / blank-line checks. -/
def isWsChar (c : Char) : Bool :=
  c = ' ' || c = '\t' || c = '\n' || c = '\r'

/-- `!line.trim()` in JS: the line is empty or all whitespace. -/
def isBlankLine (l : List Char) : Bool :=
  l.all isWsChar

/-- JS `String.prototype.trim()`. -/
def jsTrim (s : String) : String :=
  ⟨((s.toList.dropWhile isWsChar).reverse.dropWhile isWsChar).reverse⟩

/-- JS `String.prototype.includes(sub)`. -/
def jsIncludes (s sub : String) : Bool :=
  s.toList.tails.any (fun t => sub.toList.isPrefixOf t)

/-- JS `String.prototype.startsWith(pre)`. -/
def jsStartsWith (s pre : String) : Bool :=
  pre.toList.isPrefixOf s.toList

/-- JS `String.prototype.toLowerCase()` (ASCII range). -/
def jsToLower (s : String) : String :=
  ⟨s.toList.map Char.toLower⟩

/-- JS `str.split(c)[0]`: the segment before the first occurrence of `c`. -/
def jsSplitHead (c : Char) (s : String) : String :=
  ⟨(splitChar c s.toList).headI⟩

/-- The pair (complete `c`-terminated segments, trailing remainder) of a
character list.  `splitChar c s = (linesAndRest c s).1 ++ [(linesAndRest c s).2]`:
this is the split into the lines the streaming loop processes and the part
it keeps in its buffer. -/
def linesAndRest (c : Char) : List Char → List (List Char) × List Char
  | [] => ([], [])
  | a :: rest =>
    match linesAndRest c rest with
    | (ls, r) =>
      if a = c then ([] :: ls, r)
      else
        match ls with
        | [] => ([], a :: r)
        | l :: ls' => ((a :: l) :: ls', r)

/-! ## Data model (`src/types/chat.ts`), with `Date` as `Int` epoch instants -/

/-- `Message` from `src/types/chat.ts`. -/
structure Message where
  id : String
  text : String
  sender : String
  timestamp : Int
  model : Option String
  error : Option Bool
deriving DecidableEq

/-- `ChatSession` from `src/types/chat.ts`. -/
structure Session where
  id : String
  title : String
  messages : List Message
  model : String
  createdAt : Int
  updatedAt : Int
  isActive : Bool
  isPinned : Bool
  tags : List String
deriving DecidableEq

/-! ## Streaming NDJSON decode (`sendOllamaMessageStream`, `src/utils/api.ts` 643-694)

The generator is embedded as a function from the arriving chunk sequence
(already text-decoded, as `List Char` each) to the list of yielded chunks,
with the `buffer` threaded exactly as in the source loop.  `JSON.parse`
plus the `typeof data.response === 'string'` check is the parameter
`p : List Char → Option (List Char)` (it is a JS library primitive, not
repository code): `p line = some r` iff the line parses as JSON carrying a
string `response` field `r`. -/

/-- One line of the loop body: `if (!line.trim()) continue;` then
`try { JSON.parse(line) } catch { skip }` and the string-`response` check. -/
def lineYield (p : List Char → Option (List Char)) (line : List Char) :
    Option (List Char) :=
  if isBlankLine line then none else p line

/-- The `while (true)` read loop of `sendOllamaMessageStream`: split the
buffer-plus-chunk on newlines, keep the unterminated tail as the new
buffer, and yield the `response` of every complete parseable line. -/
def streamLoop (p : List Char → Option (List Char)) :
    List Char → List (List Char) → List (List Char)
  | _, [] => []
  | buffer, chunk :: rest =>
    let parts := splitChar '\n' (buffer ++ chunk)
    parts.dropLast.filterMap (lineYield p) ++
      streamLoop p (parts.getLastD []) rest

/-- `sendOllamaMessageStream`: a non-2xx initial status throws before the
read loop starts; otherwise the yielded chunks are those of `streamLoop`
starting from an empty buffer. -/
def sendOllamaMessageStream (p : List Char → Option (List Char))
    (status : Nat) (chunks : List (List Char)) :
    Except String (List (List Char)) :=
  if 200 ≤ status ∧ status < 300 then
    Except.ok (streamLoop p [] chunks)
  else
    Except.error ("Ollama streaming error: " ++ toString status)

/-! ## Session persistence (`src/utils/storage.ts`)

The persisted collection under the `chat_sessions` key is embedded as a
`List Session`; `StorageManager.saveChatSession` becomes a pure upsert on
that list. -/

/-- JS `Array.prototype.findIndex`, as an `Option Nat` (JS returns `-1`
on a miss). -/
def findIndex (p : Session → Bool) : List Session → Option Nat
  | [] => none
  | a :: l => if p a then some 0 else (findIndex p l).map (· + 1)

/-- `StorageManager.saveChatSession` (storage.ts 36-53): find the first
index whose `id` matches; replace it in place if found, otherwise
`unshift` the session onto the head. -/
def saveChatSession (session : Session) (sessions : List Session) :
    List Session :=
  match findIndex (fun s => s.id == session.id) sessions with
  | some i => sessions.set i session
  | none => session :: sessions

/-- `sessions.find(s => s.id === id)` — the persisted entry a given id
resolves to (first match). -/
def lookupId (sessionId : String) (sessions : List Session) : Option Session :=
  sessions.find? (fun s => s.id == sessionId)

/-! ### Raw (on-disk) sessions and `getChatSessions` -/

/-- A message as it appears in the parsed `chat_sessions` JSON: the
timestamp is still an ISO-8601 string. -/
structure RawMessage where
  id : String
  text : String
  sender : String
  timestamp : String
  model : Option String
  error : Option Bool
deriving DecidableEq

/-- A session as it appears in the parsed `chat_sessions` JSON:
timestamps are strings and `isActive` may be absent. -/
structure RawSession where
  id : String
  title : String
  messages : List RawMessage
  model : String
  createdAt : String
  updatedAt : String
  isActive : Option Bool
  isPinned : Bool
  tags : List String
deriving DecidableEq

/-- The message part of the normalization in `getChatSessions`
(storage.ts 69-72): `new Date(msg.timestamp)` becomes `parseDate`. -/
def normalizeRawMessage (parseDate : String → Int) (m : RawMessage) : Message :=
  { id := m.id, text := m.text, sender := m.sender,
    timestamp := parseDate m.timestamp, model := m.model, error := m.error }

/-- The session part of the normalization in `getChatSessions`
(storage.ts 64-73): dates are parsed and `isActive` defaults to `false`
(`session.isActive ?? false`). -/
def normalizeRawSession (parseDate : String → Int) (s : RawSession) : Session :=
  { id := s.id, title := s.title,
    messages := s.messages.map (normalizeRawMessage parseDate),
    model := s.model,
    createdAt := parseDate s.createdAt,
    updatedAt := parseDate s.updatedAt,
    isActive := s.isActive.getD false,
    isPinned := s.isPinned, tags := s.tags }

/-- `StorageManager.getChatSessions` (storage.ts 55-81).  `stored` is the
raw string under the `chat_sessions` key (`none` when absent).  `parse`
embeds `JSON.parse` plus the shape expected by the normalization loop; it
returns `none` exactly when that code would throw (which the `catch`
turns into `[]`).  `parseDate` embeds `new Date(string)`. -/
def getChatSessions (parse : String → Option (List RawSession))
    (parseDate : String → Int) (stored : Option String) : List Session :=
  match stored with
  | none => []
  | some data =>
    match parse data with
    | none => []
    | some raws => raws.map (normalizeRawSession parseDate)

/-! ### `getChatStats` (storage.ts 174-221) -/

/-- `ChatStats` from `src/types/chat.ts`; `averageResponseTime` is kept
in tenths of a second so the record stays decidable. -/
structure ChatStats where
  totalChats : Nat
  totalMessages : Nat
  totalTokens : Nat
  favoriteModel : String
  averageResponseTimeTenths : Nat
  dailyUsage : List (String × Nat)
deriving DecidableEq

/-- One step of the `modelUsage` accumulation (storage.ts 182-184):
`modelUsage[session.model] = (modelUsage[session.model] || 0) + 1`,
with the key/value pairs kept in first-insertion order as
`Object.entries` enumerates them. -/
def bumpModel (usage : List (String × Nat)) (model : String) :
    List (String × Nat) :=
  if usage.any (fun p => p.1 == model) then
    usage.map (fun p => if p.1 == model then (p.1, p.2 + 1) else p)
  else
    usage ++ [(model, 1)]

/-- `StorageManager.getChatStats` (storage.ts 174-221).  `isoDay` embeds
`date.toISOString().split('T')[0]` on an epoch instant and `subDays`
embeds `date.setDate(date.getDate() - i)`; both are `Date` library
behavior, not repository code. -/
def getChatStats (isoDay : Int → String) (subDays : Int → Nat → Int)
    (now : Int) (sessions : List Session) : ChatStats :=
  let totalChats := sessions.length
  let totalMessages := sessions.foldl (fun sum s => sum + s.messages.length) 0
  let modelEntries := sessions.foldl (fun acc s => bumpModel acc s.model) []
  let favoriteModel :=
    match modelEntries with
    | [] => ""
    | e :: es => (es.foldl (fun a b => if a.2 > b.2 then a else b) e).1
  let dailyUsage :=
    (List.range 30).map (fun j =>
      let i := 29 - j
      let dateStr := isoDay (subDays now i)
      let messagesOnDate := sessions.foldl
        (fun sum s =>
          sum + (s.messages.filter (fun m => isoDay m.timestamp == dateStr)).length)
        0
      (dateStr, messagesOnDate))
  { totalChats := totalChats,
    totalMessages := totalMessages,
    totalTokens := totalMessages * 50,
    favoriteModel := favoriteModel,
    averageResponseTimeTenths := 12,
    dailyUsage := dailyUsage }

/-! ## Session-state logic (`src/features/chat/ChatContext.tsx`)

`chatSessions` (the in-memory session collection) is a `List Session`;
the persisted collection is a second `List Session` written through
`saveChatSession`. -/

/-- The `newSession` literal of `createNewChat` (ChatContext.tsx 91-101):
`Date.now().toString()` id, title `"New Chat"`, empty messages, active. -/
def mkNewSession (id modelName : String) (now : Int) : Session :=
  { id := id, title := "New Chat", messages := [], model := modelName,
    createdAt := now, updatedAt := now, isActive := true,
    isPinned := false, tags := [] }

/-- `createNewChat` (ChatContext.tsx 82-117) on the in-memory session
collection: deactivate every existing session and `unshift` the fresh
active session onto the head. -/
def createNewChat (id modelName : String) (now : Int)
    (sessions : List Session) : List Session :=
  mkNewSession id modelName now ::
    sessions.map (fun s => { s with isActive := false })

/-- `switchToChat` (ChatContext.tsx 119-143) on the in-memory session
collection: a missing id is logged and the state is left unchanged;
otherwise every session's `isActive` becomes `s.id === sessionId`. -/
def switchToChatMem (sessionId : String) (sessions : List Session) :
    List Session :=
  match sessions.find? (fun s => s.id == sessionId) with
  | none => sessions
  | some _ => sessions.map (fun s => { s with isActive := s.id == sessionId })

/-- The settled storage after
`await Promise.all(sessions.map(s => StorageManager.saveChatSession(s)))`.
Each `saveChatSession` call starts during the synchronous evaluation of
the `map` and runs to its first suspension point, during which the
web-platform `getItem` reads `localStorage` synchronously — so every call
reads the same pre-existing collection `sto` before any call's `setItem`
write lands.  Each call then writes the upsert of its own session into
that shared snapshot, the writes landing in microtask (array) order, so
the last write wins and the settled storage is the last session's upsert
into `sto` (or `sto` itself when the list is empty). -/
def promiseAllSave (sessions : List Session) (sto : List Session) :
    List Session :=
  (sessions.map (fun s => saveChatSession s sto)).getLastD sto

/-- `switchToChat` acting on the pair (in-memory collection, persisted
collection): on a hit, the updated sessions are saved through
`await Promise.all(updatedSessions.map(s => StorageManager.saveChatSession(s)))`
(ChatContext.tsx 138), whose settled storage is `promiseAllSave`: every
save reads the pre-switch collection before any write lands, and the last
write wins. -/
def switchToChat (sessionId : String) (mem sto : List Session) :
    List Session × List Session :=
  match mem.find? (fun s => s.id == sessionId) with
  | none => (mem, sto)
  | some _ =>
    let updated := mem.map (fun s => { s with isActive := s.id == sessionId })
    (updated, promiseAllSave updated sto)

/-- The session-collection operations quantified over in the
at-most-one-active invariant. -/
inductive ChatOp where
  | create (id modelName : String) (now : Int)
  | switch (sessionId : String)
deriving DecidableEq

/-- Effect of one operation on the in-memory session collection. -/
def applyChatOp (sessions : List Session) : ChatOp → List Session
  | .create id modelName now => createNewChat id modelName now sessions
  | .switch sessionId => switchToChatMem sessionId sessions

/-- `Date.now().toString()` ids are fresh: a `create` may not reuse an
existing id (the sessions' id-uniqueness invariant of the data model). -/
def opFresh (sessions : List Session) : ChatOp → Prop
  | .create id _ _ => id ∉ sessions.map Session.id
  | .switch _ => True

/-- Freshness of every `create` id along a run, each judged against the
state it executes in. -/
def FreshRun (sessions : List Session) : List ChatOp → Prop
  | [] => True
  | op :: ops => opFresh sessions op ∧ FreshRun (applyChatOp sessions op) ops

/-- Number of sessions flagged active. -/
def activeCount (sessions : List Session) : Nat :=
  (sessions.filter (fun s => s.isActive)).length

/-- The state well-formedness the invariant proof maintains: unique ids
and at most one active session. -/
def WFState (sessions : List Session) : Prop :=
  (sessions.map Session.id).Nodup ∧ activeCount sessions ≤ 1

/-- `generateChatTitle` (ChatContext.tsx 486-489): first four
space-separated words, ellipsis-suffixed when the message has more. -/
def generateChatTitle (firstMessage : String) : String :=
  ⟨joinChar ' ' ((splitChar ' ' firstMessage.toList).take 4) ++
    (if 4 < (splitChar ' ' firstMessage.toList).length then "...".toList else [])⟩

/-! ## Configuration construction (`src/utils/api.ts`)

`new URL` parsing (a WHATWG library primitive) is the parameter
`validURL`: `validURL url = true` iff `new URL(url)` succeeds with an
`http:`/`https:` protocol, i.e. `APIManager.validateEndpointURL`.
`isHTTPSRequired()` (browser platform over an `https:` page) is the
boolean parameter `httpsPage`. -/

/-- The spec's error taxonomy for configuration construction
(`InvalidEndpoint`, `MixedContentError`, `MissingCredential`), matching
the three `throw new Error(...)` sites of `createAPIConfig`. -/
inductive ConfigError where
  | invalidEndpoint
  | mixedContent
  | missingCredential
deriving DecidableEq

/-- The connection-relevant slice of `AppSettings` (`src/types/chat.ts`);
the UI-only settings fields play no part in the embedded operations. -/
structure AppSettings where
  apiProvider : String
  endpoint : String
  apiKey : String
deriving DecidableEq

/-- `APIConfig` from `src/utils/api.ts` 5-11. -/
structure APIConfig where
  provider : String
  endpoint : String
  apiKey : Option String
  timeout : Nat
  headers : List (String × String)
deriving DecidableEq

/-- `APIManager.getProviderHeaders` (api.ts 72-94); `if (apiKey)` is JS
truthiness, i.e. the key is present and non-empty. -/
def getProviderHeaders (provider apiKey : String) : List (String × String) :=
  let base := [("Content-Type", "application/json")]
  if provider == "openai" then
    if apiKey == "" then base
    else base ++ [("Authorization", "Bearer " ++ apiKey)]
  else if provider == "anthropic" then
    if apiKey == "" then base
    else base ++ [("x-api-key", apiKey), ("anthropic-version", "2023-06-01")]
  else base

/-- `APIManager.createAPIConfig` (api.ts 41-70): endpoint validation,
then the mixed-content check, then the hosted-provider credential check,
then the configuration record.  All three errors are raised before any
network request is constructed. -/
def createAPIConfig (validURL : String → Bool) (httpsPage : Bool)
    (settings : AppSettings) : Except ConfigError APIConfig :=
  if !(validURL settings.endpoint) then
    Except.error ConfigError.invalidEndpoint
  else if httpsPage && jsStartsWith settings.endpoint "http://" then
    Except.error ConfigError.mixedContent
  else if settings.apiProvider != "ollama" && jsTrim settings.apiKey == "" then
    Except.error ConfigError.missingCredential
  else
    Except.ok
      { provider := settings.apiProvider,
        endpoint := settings.endpoint,
        apiKey := if settings.apiProvider != "ollama" then some settings.apiKey
          else none,
        timeout := 20000,
        headers := getProviderHeaders settings.apiProvider settings.apiKey }

/-- The validation phase of `APIManager.testConnection` (api.ts 719-740),
everything before the first network call; an error here means no request
is attempted (`testConnection` itself catches it into
`{success: false, error}`). -/
def testConnectionPrecheck (validURL : String → Bool) (httpsPage : Bool)
    (provider endpoint : String) (apiKey : Option String) :
    Except ConfigError APIConfig :=
  if !(validURL endpoint) then
    Except.error ConfigError.invalidEndpoint
  else if httpsPage && jsStartsWith endpoint "http://" then
    Except.error ConfigError.mixedContent
  else if provider != "ollama" && jsTrim (apiKey.getD "") == "" then
    Except.error ConfigError.missingCredential
  else
    Except.ok
      { provider := provider, endpoint := endpoint, apiKey := apiKey,
        timeout := 20000,
        headers := getProviderHeaders provider (apiKey.getD "") }

/-! ## Model-list normalization (`getOllamaModels`, api.ts 248-281) -/

/-- The `details` object of a raw model entry from `GET /api/tags`. -/
structure ModelDetails where
  parameter_size : Option String
  quantization_level : Option String
  family : Option String
deriving DecidableEq

/-- One raw entry of the local provider's model list; absent JSON fields
are `none`. -/
structure RawOllamaModel where
  name : Option String
  model : Option String
  id : Option String
  size : Option Nat
  modified_at : Option Int
  details : Option ModelDetails
deriving DecidableEq

/-- `OllamaModel` from `src/types/chat.ts` (the normalized descriptor). -/
structure OllamaModel where
  id : String
  name : String
  displayName : String
  description : String
  size : String
  parameters : String
  isDownloaded : Bool
  isActive : Bool
  provider : String
  capabilities : List String
  contextLength : Nat
  lastUsed : Int
deriving DecidableEq

/-- JS `a || b` on an optional string: absent and `""` both fall through
to the fallback. -/
def jsOrString (v : Option String) (fallback : String) : String :=
  match v with
  | some s => if s == "" then fallback else s
  | none => fallback

/-- `APIManager.extractParameters` (api.ts 630-640): substring probes for
the parameter count embedded in the raw model name. -/
def extractParameters (modelName : String) : String :=
  if jsIncludes modelName "70b" then "70B"
  else if jsIncludes modelName "13b" then "13B"
  else if jsIncludes modelName "14b" then "14B"
  else if jsIncludes modelName "8b" then "8B"
  else if jsIncludes modelName "7b" then "7B"
  else if jsIncludes modelName "4b" then "4B"
  else if jsIncludes modelName "3b" then "3B"
  else if jsIncludes modelName "1b" then "1B"
  else "Unknown"

/-- `APIManager.getContextLength` (api.ts 297-310): context-window size
from name-substring matches, defaulting to 4096. -/
def getContextLength (modelName : String) (_family : Option String) : Nat :=
  let name := jsToLower modelName
  if jsIncludes name "gemma" then 8192
  else if jsIncludes name "deepseek" then 32768
  else if jsIncludes name "qwen" then 32768
  else if jsIncludes name "llama" then 4096
  else if jsIncludes name "mistral" then 8192
  else if jsIncludes name "codellama" then 16384
  else 4096

/-- `parseFloat(x.toFixed(2))` rendered back to a string, for a value
given in hundredths: round-half-up to two decimals, then drop trailing
zero decimals as `parseFloat` does. -/
def toFixed2Trimmed (hundredths : Nat) : String :=
  let ip := hundredths / 100
  let fr := hundredths % 100
  if fr == 0 then toString ip
  else if fr % 10 == 0 then toString ip ++ "." ++ toString (fr / 10)
  else if fr < 10 then toString ip ++ ".0" ++ toString fr
  else toString ip ++ "." ++ toString fr

/-- `APIManager.formatBytes` (api.ts 622-628): binary-prefixed size with
two (trimmed) decimals.  `Math.floor(Math.log(bytes) / Math.log(1024))`
is the exact base-1024 floor logarithm `Nat.log 1024`. -/
def formatBytes (bytes : Nat) : String :=
  if bytes == 0 then "0 Bytes"
  else
    let i := Nat.log 1024 bytes
    let p := 1024 ^ i
    let hundredths := (200 * bytes + p) / (2 * p)
    toFixed2Trimmed hundredths ++ " " ++
      (["Bytes", "KB", "MB", "GB"].getD i "undefined")

/-- The per-entry normalization closure of `getOllamaModels`
(api.ts 248-281).  `now` stands for the `Date.now()` fallback used when
`modified_at` is absent. -/
def normalizeOllamaModel (now : Int) (index : Nat) (m : RawOllamaModel) :
    OllamaModel :=
  let modelName := jsOrString m.name (jsOrString m.model
    (jsOrString m.id ("model-" ++ toString index)))
  let modelSize := m.size.getD 0
  let details := m.details.getD ⟨none, none, none⟩
  let displayName :=
    if jsIncludes modelName ":" then jsSplitHead ':' modelName else modelName
  let description := "Ollama model: " ++ modelName ++
    (match details.parameter_size with
     | some p => if p == "" then "" else " (" ++ p ++ ")"
     | none => "") ++
    (match details.quantization_level with
     | some q => if q == "" then "" else " - " ++ q
     | none => "")
  { id := "ollama-" ++ modelName,
    name := modelName,
    displayName := displayName,
    description := description,
    size := formatBytes modelSize,
    parameters := jsOrString details.parameter_size (extractParameters modelName),
    isDownloaded := true,
    isActive := false,
    provider := "ollama",
    capabilities := ["chat", "completion"],
    contextLength := getContextLength modelName details.family,
    lastUsed := m.modified_at.getD now }

/-- Occurrences of an id in the persisted collection. -/
def countId (x : String) (l : List Session) : Nat :=
  (l.map Session.id).count x

/-- The complete (newline-terminated) NDJSON lines of a response body;
the trailing unterminated fragment is not a line. -/
def ndjsonLines (body : List Char) : List (List Char) :=
  (splitChar '\n' body).dropLast

/-! ## Helper lemmas -/

theorem splitChar_ne_nil (c : Char) (s : List Char) : splitChar c s ≠ [] := by
  induction s with
  | nil => simp [splitChar]
  | cons a rest ih =>
    simp only [splitChar]
    by_cases h : a = c
    · simp [h]
    · simp only [if_neg h]
      cases hs : splitChar c rest with
      | nil => simp
      | cons l ls => simp

theorem splitChar_of_not_mem {c : Char} {s : List Char} (h : c ∉ s) :
    splitChar c s = [s] := by
  induction s with
  | nil => rfl
  | cons a rest ih =>
    simp only [List.mem_cons, not_or] at h
    simp only [splitChar]
    rw [if_neg (fun hac : a = c => h.1 hac.symm), ih h.2]

theorem not_mem_of_mem_splitChar {c : Char} {s : List Char} {l : List Char}
    (h : l ∈ splitChar c s) : c ∉ l := by
  induction s generalizing l with
  | nil =>
    simp only [splitChar, List.mem_singleton] at h
    simp [h]
  | cons a rest ih =>
    simp only [splitChar] at h
    by_cases hac : a = c
    · rw [if_pos hac] at h
      rcases List.mem_cons.mp h with h | h
      · simp [h]
      · exact ih h
    · rw [if_neg hac] at h
      cases hs : splitChar c rest with
      | nil => exact absurd hs (splitChar_ne_nil c rest)
      | cons m ms =>
        rw [hs] at h
        rcases List.mem_cons.mp h with h | h
        · subst h
          intro hc
          rcases List.mem_cons.mp hc with hc | hc
          · exact hac hc.symm
          · exact ih (hs ▸ List.mem_cons_self m ms) hc
        · exact ih (hs ▸ List.mem_cons_of_mem m h)

theorem joinChar_splitChar (c : Char) (s : List Char) :
    joinChar c (splitChar c s) = s := by
  induction s with
  | nil => rfl
  | cons a rest ih =>
    simp only [splitChar]
    by_cases hac : a = c
    · rw [if_pos hac]
      cases hs : splitChar c rest with
      | nil => exact absurd hs (splitChar_ne_nil c rest)
      | cons m ms =>
        rw [hs] at ih
        subst hac
        simp [joinChar, ih]
    · rw [if_neg hac]
      cases hs : splitChar c rest with
      | nil => exact absurd hs (splitChar_ne_nil c rest)
      | cons m ms =>
        rw [hs] at ih
        cases ms with
        | nil => simp_all [joinChar]
        | cons m2 ms2 => simp_all [joinChar]

theorem splitChar_eq_linesAndRest (c : Char) (s : List Char) :
    splitChar c s = (linesAndRest c s).1 ++ [(linesAndRest c s).2] := by
  induction s with
  | nil => rfl
  | cons a rest ih =>
    simp only [splitChar, linesAndRest]
    by_cases hac : a = c
    · simp [hac, ih]
    · rw [if_neg hac, if_neg hac, ih]
      cases h : (linesAndRest c rest).1 with
      | nil => simp [h]
      | cons l ls' => simp [h]

theorem linesAndRest_of_not_mem {c : Char} {s : List Char} (h : c ∉ s) :
    linesAndRest c s = ([], s) := by
  induction s with
  | nil => rfl
  | cons a rest ih =>
    simp only [List.mem_cons, not_or] at h
    simp only [linesAndRest, ih h.2]
    rw [if_neg (fun hac : a = c => h.1 hac.symm)]

theorem not_mem_linesAndRest_snd (c : Char) (s : List Char) :
    c ∉ (linesAndRest c s).2 := by
  induction s with
  | nil => simp [linesAndRest]
  | cons a rest ih =>
    rcases hA : linesAndRest c rest with ⟨ls, r⟩
    rw [hA] at ih
    simp only [linesAndRest, hA]
    by_cases hac : a = c
    · simpa [hac] using ih
    · rw [if_neg hac]
      cases ls with
      | nil =>
        simp only [List.mem_cons, not_or]
        exact ⟨fun hc => hac hc.symm, ih⟩
      | cons l ls' => simpa using ih

theorem linesAndRest_append (c : Char) (a b : List Char) :
    linesAndRest c (a ++ b) =
      ((linesAndRest c a).1 ++ (linesAndRest c ((linesAndRest c a).2 ++ b)).1,
        (linesAndRest c ((linesAndRest c a).2 ++ b)).2) := by
  induction a with
  | nil => simp [linesAndRest]
  | cons a₀ as ih =>
    rcases hA : linesAndRest c as with ⟨la, ra⟩
    rcases hB : linesAndRest c (ra ++ b) with ⟨lb, rb⟩
    have ih' : linesAndRest c (as ++ b) = (la ++ lb, rb) := by
      rw [ih, hA]
      simp [hB]
    by_cases hac : a₀ = c
    · simp only [List.cons_append, linesAndRest, ih', hA, if_pos hac, hB]
      simp [ih']
    · cases la with
      | nil =>
        cases lb with
        | nil =>
          simp only [List.cons_append, linesAndRest, ih', hA, if_neg hac, hB]
          simp [ih', linesAndRest, hB, if_neg hac]
        | cons l t =>
          simp only [List.cons_append, linesAndRest, ih', hA, if_neg hac, hB]
          simp [ih', linesAndRest, hB, if_neg hac]
      | cons l t =>
        simp only [List.cons_append, linesAndRest, ih', hA, if_neg hac, hB]
        simp [ih']

theorem streamLoop_eq_aux (p : List Char → Option (List Char))
    (chunks : List (List Char)) :
    ∀ buffer : List Char, '\n' ∉ buffer →
      streamLoop p buffer chunks =
        (linesAndRest '\n' (buffer ++ chunks.flatten)).1.filterMap (lineYield p) := by
  induction chunks with
  | nil =>
    intro buffer hb
    rw [List.flatten_nil, List.append_nil, linesAndRest_of_not_mem hb]
    rfl
  | cons chunk rest ih =>
    intro buffer hb
    rcases hA : linesAndRest '\n' (buffer ++ chunk) with ⟨la, ra⟩
    have hra : '\n' ∉ ra := by
      have := not_mem_linesAndRest_snd '\n' (buffer ++ chunk)
      rwa [hA] at this
    have hparts : splitChar '\n' (buffer ++ chunk) = la ++ [ra] := by
      rw [splitChar_eq_linesAndRest, hA]
    simp only [streamLoop, hparts, List.dropLast_concat, List.getLastD_concat]
    rw [ih ra hra]
    have happ := linesAndRest_append '\n' (buffer ++ chunk) rest.flatten
    rw [hA] at happ
    simp only [List.flatten_cons, ← List.append_assoc]
    rw [happ, List.filterMap_append]

theorem streamLoop_eq (p : List Char → Option (List Char))
    (chunks : List (List Char)) :
    streamLoop p [] chunks =
      (linesAndRest '\n' chunks.flatten).1.filterMap (lineYield p) := by
  simpa using streamLoop_eq_aux p chunks [] (by simp)

/-! ## Helper lemmas: `saveChatSession` as an upsert -/
theorem findIndex_eq_none_of_not_mem {s : Session} {l : List Session}
    (h : s.id ∉ l.map Session.id) :
    findIndex (fun t => t.id == s.id) l = none := by
  induction l with
  | nil => rfl
  | cons a rest ih =>
    simp only [List.map_cons, List.mem_cons, not_or] at h
    have ha : (a.id == s.id) = false := by
      simp only [beq_eq_false_iff_ne, ne_eq]
      exact fun he => h.1 he.symm
    simp [findIndex, ha, ih h.2]

theorem saveChatSession_of_not_mem {s : Session} {l : List Session}
    (h : s.id ∉ l.map Session.id) :
    saveChatSession s l = s :: l := by
  simp [saveChatSession, findIndex_eq_none_of_not_mem h]

theorem saveChatSession_of_findIndex {s : Session} {l : List Session} {i : Nat}
    (h : findIndex (fun t => t.id == s.id) l = some i) :
    saveChatSession s l = l.set i s := by
  simp [saveChatSession, h]

theorem findIndex_saveChatSession_self (s : Session) (l : List Session) :
    findIndex (fun t => t.id == s.id) (saveChatSession s l) =
      some ((findIndex (fun t => t.id == s.id) l).getD 0) ∧
    saveChatSession s (saveChatSession s l) = saveChatSession s l := by
  induction l with
  | nil =>
    constructor
    · simp [saveChatSession, findIndex]
    · simp [saveChatSession, findIndex]
  | cons a rest ih =>
    by_cases ha : (a.id == s.id) = true
    · have h0 : findIndex (fun t => t.id == s.id) (a :: rest) = some 0 := by
        simp [findIndex, ha]
      have hs : saveChatSession s (a :: rest) = s :: rest := by
        simp [saveChatSession, h0]
      have hfx : findIndex (fun t => t.id == s.id) (s :: rest) = some 0 := by
        simp [findIndex]
      constructor
      · rw [hs, hfx, h0]
        rfl
      · rw [hs]
        simp [saveChatSession, hfx]
    · have ha' : (a.id == s.id) = false := by
        simpa using ha
      cases hf : findIndex (fun t => t.id == s.id) rest with
      | none =>
        have h0 : findIndex (fun t => t.id == s.id) (a :: rest) = none := by
          simp [findIndex, ha', hf]
        have hs : saveChatSession s (a :: rest) = s :: a :: rest := by
          simp [saveChatSession, h0]
        have hfx : findIndex (fun t => t.id == s.id) (s :: a :: rest) = some 0 := by
          simp [findIndex]
        constructor
        · rw [hs, hfx, h0]
          rfl
        · rw [hs]
          simp [saveChatSession, hfx]
      | some i =>
        have h0 : findIndex (fun t => t.id == s.id) (a :: rest) = some (i + 1) := by
          simp [findIndex, ha', hf]
        have hs : saveChatSession s (a :: rest) = a :: rest.set i s := by
          simp [saveChatSession, h0]
        have hrest : saveChatSession s rest = rest.set i s :=
          saveChatSession_of_findIndex hf
        have ihf := ih.1
        rw [hrest, hf] at ihf
        have hfx : findIndex (fun t => t.id == s.id) (a :: rest.set i s) =
            some (i + 1) := by
          simp [findIndex, ha', ihf]
        constructor
        · rw [hs, hfx, h0]
          rfl
        · rw [hs]
          simp only [saveChatSession, hfx]
          simp [List.set_set]

theorem saveChatSession_idem (s : Session) (l : List Session) :
    saveChatSession s (saveChatSession s l) = saveChatSession s l :=
  (findIndex_saveChatSession_self s l).2

theorem findIndex_eq_none_iff {s : Session} {l : List Session} :
    findIndex (fun t => t.id == s.id) l = none ↔ s.id ∉ l.map Session.id := by
  constructor
  · intro h hmem
    induction l with
    | nil => simp at hmem
    | cons a rest ih =>
      simp only [findIndex] at h
      by_cases ha : (a.id == s.id) = true
      · simp [ha] at h
      · have ha' : (a.id == s.id) = false := by simpa using ha
        simp only [ha', Bool.false_eq_true, if_false, Option.map_eq_none'] at h
        rcases List.mem_cons.mp hmem with he | hmem'
        · exact absurd (by simpa using he.symm) (by simpa using ha)
        · exact ih h hmem'
  · exact findIndex_eq_none_of_not_mem

theorem map_id_set_of_findIndex {s : Session} {l : List Session} {i : Nat}
    (h : findIndex (fun t => t.id == s.id) l = some i) :
    (l.set i s).map Session.id = l.map Session.id := by
  induction l generalizing i with
  | nil => simp [findIndex] at h
  | cons a rest ih =>
    simp only [findIndex] at h
    by_cases ha : (a.id == s.id) = true
    · simp only [ha, if_true] at h
      cases h
      simp [show a.id = s.id from by simpa using ha]
    · have ha' : (a.id == s.id) = false := by simpa using ha
      simp only [ha', Bool.false_eq_true, if_false] at h
      cases hf : findIndex (fun t => t.id == s.id) rest with
      | none => rw [hf] at h; simp at h
      | some j =>
        rw [hf] at h
        simp only [Option.map_some'] at h
        cases h
        simp [ih hf]

theorem countId_saveChatSession (s : Session) (l : List Session)
    (h : countId s.id l ≤ 1) : countId s.id (saveChatSession s l) = 1 := by
  cases hf : findIndex (fun t => t.id == s.id) l with
  | none =>
    have hnm : s.id ∉ l.map Session.id := findIndex_eq_none_iff.mp hf
    rw [saveChatSession, hf]
    simp only [countId, List.map_cons]
    rw [List.count_cons_self, List.count_eq_zero.mpr hnm]
  | some i =>
    have hmem : s.id ∈ l.map Session.id := by
      by_contra hnm
      rw [findIndex_eq_none_iff.mpr hnm] at hf
      exact Option.noConfusion hf
    have h1 : 1 ≤ countId s.id l := by
      simpa [countId] using List.one_le_count_iff.mpr hmem
    rw [saveChatSession, hf]
    simp only [countId, map_id_set_of_findIndex hf]
    exact le_antisymm h h1

theorem lookupId_cons_hit {a : Session} {x : String} {l : List Session}
    (h : (a.id == x) = true) : lookupId x (a :: l) = some a := by
  simp [lookupId, List.find?_cons, h]

theorem lookupId_cons_miss {a : Session} {x : String} {l : List Session}
    (h : (a.id == x) = false) : lookupId x (a :: l) = lookupId x l := by
  simp [lookupId, List.find?_cons, h]

theorem lookupId_saveChatSession_self (s : Session) (l : List Session) :
    lookupId s.id (saveChatSession s l) = some s := by
  induction l with
  | nil =>
    rw [saveChatSession, findIndex]
    exact lookupId_cons_hit (by simp)
  | cons a rest ih =>
    by_cases ha : (a.id == s.id) = true
    · have h0 : findIndex (fun t => t.id == s.id) (a :: rest) = some 0 := by
        simp [findIndex, ha]
      rw [saveChatSession_of_findIndex h0, List.set_cons_zero]
      exact lookupId_cons_hit (by simp)
    · have ha' : (a.id == s.id) = false := by simpa using ha
      cases hf : findIndex (fun t => t.id == s.id) rest with
      | none =>
        have h0 : findIndex (fun t => t.id == s.id) (a :: rest) = none := by
          simp [findIndex, ha', hf]
        rw [saveChatSession, h0]
        exact lookupId_cons_hit (by simp)
      | some i =>
        have h0 : findIndex (fun t => t.id == s.id) (a :: rest) = some (i + 1) := by
          simp [findIndex, ha', hf]
        rw [saveChatSession_of_findIndex h0, List.set_cons_succ,
          lookupId_cons_miss ha']
        rw [← saveChatSession_of_findIndex hf]
        exact ih

theorem lookupId_saveChatSession_other (s : Session) (l : List Session)
    (x : String) (hx : s.id ≠ x) :
    lookupId x (saveChatSession s l) = lookupId x l := by
  have hsx : (s.id == x) = false := by simpa using hx
  induction l with
  | nil =>
    rw [saveChatSession, findIndex, lookupId_cons_miss hsx]
  | cons a rest ih =>
    by_cases ha : (a.id == s.id) = true
    · have haeq : a.id = s.id := by simpa using ha
      have hax : (a.id == x) = false := by simp [haeq, hsx]
      have h0 : findIndex (fun t => t.id == s.id) (a :: rest) = some 0 := by
        simp [findIndex, ha]
      rw [saveChatSession_of_findIndex h0, List.set_cons_zero,
        lookupId_cons_miss hsx, lookupId_cons_miss hax]
    · have ha' : (a.id == s.id) = false := by simpa using ha
      cases hf : findIndex (fun t => t.id == s.id) rest with
      | none =>
        have h0 : findIndex (fun t => t.id == s.id) (a :: rest) = none := by
          simp [findIndex, ha', hf]
        rw [saveChatSession, h0, lookupId_cons_miss hsx]
      | some i =>
        have h0 : findIndex (fun t => t.id == s.id) (a :: rest) = some (i + 1) := by
          simp [findIndex, ha', hf]
        rw [saveChatSession_of_findIndex h0, List.set_cons_succ]
        by_cases hax : (a.id == x) = true
        · rw [lookupId_cons_hit hax, lookupId_cons_hit hax]
        · have hax' : (a.id == x) = false := by simpa using hax
          rw [lookupId_cons_miss hax', lookupId_cons_miss hax']
          rw [← saveChatSession_of_findIndex hf]
          exact ih

/-! ## Helper lemmas: the at-most-one-active invariant -/
theorem map_id_deactivate (sessions : List Session) :
    (sessions.map (fun s => { s with isActive := false })).map Session.id =
      sessions.map Session.id := by
  rw [List.map_map]
  rfl

theorem map_id_activate (x : String) (sessions : List Session) :
    (sessions.map (fun s => { s with isActive := s.id == x })).map Session.id =
      sessions.map Session.id := by
  rw [List.map_map]
  rfl

theorem activeCount_createNewChat (id modelName : String) (now : Int)
    (sessions : List Session) :
    activeCount (createNewChat id modelName now sessions) = 1 := by
  simp only [createNewChat, activeCount, mkNewSession, List.filter_cons]
  simp [List.filter_map, Function.comp_def]

theorem countP_id_le_one_of_nodup {x : String} {sessions : List Session}
    (h : (sessions.map Session.id).Nodup) :
    sessions.countP (fun s => s.id == x) ≤ 1 := by
  have hcount : (sessions.map Session.id).count x =
      sessions.countP (fun s => s.id == x) := by
    rw [List.count, List.countP_map]
    rfl
  rw [← hcount]
  exact List.nodup_iff_count_le_one.mp h x

theorem activeCount_activate (x : String) (sessions : List Session) :
    activeCount (sessions.map (fun s => { s with isActive := s.id == x })) =
      sessions.countP (fun s => s.id == x) := by
  rw [activeCount, List.filter_map, List.length_map, List.countP_eq_length_filter]
  rfl

theorem wfState_applyChatOp {st : List Session} {op : ChatOp}
    (hwf : WFState st) (hfresh : opFresh st op) :
    WFState (applyChatOp st op) := by
  cases op with
  | create id modelName now =>
    constructor
    · simp only [applyChatOp, createNewChat, List.map_cons, map_id_deactivate]
      exact List.nodup_cons.mpr ⟨hfresh, hwf.1⟩
    · rw [applyChatOp, activeCount_createNewChat]
  | switch sessionId =>
    simp only [applyChatOp, switchToChatMem]
    cases hfind : st.find? (fun s => s.id == sessionId) with
    | none => exact hwf
    | some t =>
      constructor
      · rw [map_id_activate]
        exact hwf.1
      · rw [activeCount_activate]
        exact countP_id_le_one_of_nodup hwf.1

theorem wfState_foldl {st : List Session} {ops : List ChatOp}
    (hwf : WFState st) (hrun : FreshRun st ops) :
    WFState (ops.foldl applyChatOp st) := by
  induction ops generalizing st with
  | nil => exact hwf
  | cons op rest ih =>
    rw [List.foldl_cons]
    exact ih (wfState_applyChatOp hwf hrun.1) hrun.2

theorem ndjsonLines_eq_linesAndRest (body : List Char) :
    ndjsonLines body = (linesAndRest '\n' body).1 := by
  rw [ndjsonLines, splitChar_eq_linesAndRest, List.dropLast_concat]

theorem mk_toList (s : String) : String.mk s.toList = s := rfl

theorem generateChatTitle_short {s : String}
    (h : (splitChar ' ' s.toList).length ≤ 4) : generateChatTitle s = s := by
  rw [generateChatTitle, if_neg (not_lt.mpr h), List.take_of_length_le h,
    joinChar_splitChar, List.append_nil, mk_toList]

theorem foldl_add_length (f : Session → Nat) (l : List Session) :
    ∀ n : Nat, l.foldl (fun sum s => sum + f s) n = n + (l.map f).sum := by
  induction l with
  | nil => intro n; simp
  | cons a rest ih =>
    intro n
    rw [List.foldl_cons, ih (n + f a)]
    simp [Nat.add_assoc]

theorem find?_id_eq_none_iff {sessionId : String} {l : List Session} :
    l.find? (fun s => s.id == sessionId) = none ↔
      sessionId ∉ l.map Session.id := by
  rw [List.find?_eq_none]
  constructor
  · intro h hmem
    rcases List.mem_map.mp hmem with ⟨s, hs, hid⟩
    exact h s hs (by simp [hid])
  · intro h s hs hp
    exact h (List.mem_map.mpr ⟨s, hs, by simpa using hp⟩)

/-! ## Claim theorems -/

/-- C1: for every sequence of `createNewChat`/`switchToChat` operations
starting from a session collection with at most one active session (and
the data model's id-uniqueness invariant, with `Date.now()`-fresh ids for
created sessions), after each settled operation at most one session in
the collection has `isActive = true` — every prefix of a run is itself a
run, so the conclusion holds after each operation. -/
theorem c1_at_most_one_active (st : List Session) (ops : List ChatOp)
    (hids : (st.map Session.id).Nodup)
    (hactive : activeCount st ≤ 1)
    (hfresh : FreshRun st ops) :
    activeCount (ops.foldl applyChatOp st) ≤ 1 :=
  (wfState_foldl ⟨hids, hactive⟩ hfresh).2

/-- Witness for C1: a concrete run of two creates and two switches (one
of them to a missing id) from the empty collection. -/
theorem c1_at_most_one_active_witness :
    activeCount
      ([ChatOp.create "100" "llama2" 100, ChatOp.create "200" "llama2" 200,
        ChatOp.switch "100", ChatOp.switch "missing"].foldl applyChatOp []) ≤ 1 :=
  c1_at_most_one_active [] _ (by decide) (by decide)
    ⟨by simp [opFresh], by simp [opFresh, applyChatOp, createNewChat, mkNewSession],
      trivial, trivial, trivial⟩

/-- C3: `saveChatSession` is an idempotent upsert by id — an absent id is
inserted at the head, a present id replaces the first matching entry in
place, saving twice equals saving once, and after a double save the
collection holds exactly one entry with that id. -/
theorem c3_saveSession_upsert (s : Session) (l : List Session) :
    (s.id ∉ l.map Session.id → saveChatSession s l = s :: l) ∧
    (∀ i, findIndex (fun t => t.id == s.id) l = some i →
      saveChatSession s l = l.set i s) ∧
    saveChatSession s (saveChatSession s l) = saveChatSession s l ∧
    (countId s.id l ≤ 1 →
      countId s.id (saveChatSession s (saveChatSession s l)) = 1) := by
  refine ⟨saveChatSession_of_not_mem, fun i hi => saveChatSession_of_findIndex hi,
    saveChatSession_idem s l, fun hc => ?_⟩
  rw [saveChatSession_idem]
  exact countId_saveChatSession s l hc

/-- Witness for C3: a fresh save inserts at the head; a double save of
the same session leaves exactly one entry with its id. -/
theorem c3_saveSession_upsert_witness :
    saveChatSession ⟨"a", "t", [], "m", 0, 0, true, false, []⟩ [] =
      [⟨"a", "t", [], "m", 0, 0, true, false, []⟩] ∧
    countId "a"
      (saveChatSession ⟨"a", "t", [], "m", 0, 0, true, false, []⟩
        (saveChatSession ⟨"a", "t", [], "m", 0, 0, true, false, []⟩ [])) = 1 :=
  ⟨(c3_saveSession_upsert ⟨"a", "t", [], "m", 0, 0, true, false, []⟩ []).1 (by decide),
    (c3_saveSession_upsert ⟨"a", "t", [], "m", 0, 0, true, false, []⟩ []).2.2.2 (by decide)⟩

/-- C4 (code bug): the claim — with the spec (§4.2) — says `switchToChat`
on an existing id marks exactly that session active, all others inactive,
and persists every changed session, while a missing id is a logged no-op.
The missing-id half and the in-memory half hold, but the persisted half
fails: `Promise.all(updatedSessions.map(saveChatSession))` lets every
save read the pre-switch collection before any write lands, so only the
last session's upsert survives.  At the failing input below — persisted
sessions `a` (active) and `b` (inactive), switching to `"b"` — the
settled storage still holds `a` active: the deactivation of `a` is never
persisted and two sessions are active on disk, contradicting the claim
and the spec's persisted at-most-one-active invariant. -/
theorem c4_switchToChat_storage_race :
    switchToChat "zzz"
      [⟨"a", "t", [], "m", 0, 0, true, false, []⟩,
        ⟨"b", "u", [], "m", 0, 0, false, false, []⟩]
      [⟨"a", "t", [], "m", 0, 0, true, false, []⟩,
        ⟨"b", "u", [], "m", 0, 0, false, false, []⟩] =
      ([⟨"a", "t", [], "m", 0, 0, true, false, []⟩,
        ⟨"b", "u", [], "m", 0, 0, false, false, []⟩],
       [⟨"a", "t", [], "m", 0, 0, true, false, []⟩,
        ⟨"b", "u", [], "m", 0, 0, false, false, []⟩]) ∧
    (switchToChat "b"
      [⟨"a", "t", [], "m", 0, 0, true, false, []⟩,
        ⟨"b", "u", [], "m", 0, 0, false, false, []⟩]
      [⟨"a", "t", [], "m", 0, 0, true, false, []⟩,
        ⟨"b", "u", [], "m", 0, 0, false, false, []⟩]).1 =
      [⟨"a", "t", [], "m", 0, 0, false, false, []⟩,
        ⟨"b", "u", [], "m", 0, 0, true, false, []⟩] ∧
    (switchToChat "b"
      [⟨"a", "t", [], "m", 0, 0, true, false, []⟩,
        ⟨"b", "u", [], "m", 0, 0, false, false, []⟩]
      [⟨"a", "t", [], "m", 0, 0, true, false, []⟩,
        ⟨"b", "u", [], "m", 0, 0, false, false, []⟩]).2 =
      [⟨"a", "t", [], "m", 0, 0, true, false, []⟩,
        ⟨"b", "u", [], "m", 0, 0, true, false, []⟩] ∧
    lookupId "a"
      (switchToChat "b"
        [⟨"a", "t", [], "m", 0, 0, true, false, []⟩,
          ⟨"b", "u", [], "m", 0, 0, false, false, []⟩]
        [⟨"a", "t", [], "m", 0, 0, true, false, []⟩,
          ⟨"b", "u", [], "m", 0, 0, false, false, []⟩]).2 =
      some ⟨"a", "t", [], "m", 0, 0, true, false, []⟩ ∧
    activeCount
      (switchToChat "b"
        [⟨"a", "t", [], "m", 0, 0, true, false, []⟩,
          ⟨"b", "u", [], "m", 0, 0, false, false, []⟩]
        [⟨"a", "t", [], "m", 0, 0, true, false, []⟩,
          ⟨"b", "u", [], "m", 0, 0, false, false, []⟩]).2 = 2 := by
  decide

/-- C2: for a streaming send, when the initial status is 2xx the yielded
chunks are exactly the `response` values (`p line`) of the complete
newline-delimited lines of the whole body, in arrival order — however the
body is cut into transport chunks — so their concatenation equals the
concatenation of those `response` values; lines `p` rejects (not valid
JSON, or no string `response` field — in particular blank lines) are
skipped without aborting; and a non-2xx status yields an error with no
chunk produced. -/
theorem c2_stream_decode (p : List Char → Option (List Char)) (status : Nat)
    (chunks : List (List Char))
    (hblank : ∀ l, isBlankLine l = true → p l = none) :
    (200 ≤ status ∧ status < 300 →
      sendOllamaMessageStream p status chunks =
        Except.ok ((ndjsonLines chunks.flatten).filterMap p) ∧
      ((ndjsonLines chunks.flatten).filterMap p).flatten =
        ((ndjsonLines chunks.flatten).map (fun l => (p l).getD [])).flatten) ∧
    (¬(200 ≤ status ∧ status < 300) →
      sendOllamaMessageStream p status chunks =
        Except.error ("Ollama streaming error: " ++ toString status)) := by
  have hyield : lineYield p = p := by
    funext l
    rw [lineYield]
    by_cases hb : isBlankLine l = true
    · rw [if_pos hb, hblank l hb]
    · rw [if_neg hb]
  constructor
  · intro hok
    constructor
    · rw [sendOllamaMessageStream, if_pos hok, streamLoop_eq, hyield,
        ndjsonLines_eq_linesAndRest]
    · induction ndjsonLines chunks.flatten with
      | nil => rfl
      | cons l rest ih =>
        cases hp : p l with
        | none => simp [List.filterMap_cons, hp, ih]
        | some r => simp [List.filterMap_cons, hp, ih]
  · intro hbad
    rw [sendOllamaMessageStream, if_neg hbad]

/-- Witness for C2: a body split mid-line across two chunks, with a
malformed line in the middle, decoded by a concrete parser. -/
theorem c2_stream_decode_witness :
    sendOllamaMessageStream
      (fun l => if isBlankLine l then none
        else if l = "A".toList then some "Hello".toList
        else if l = "B".toList then some " world".toList
        else none)
      200
      ["A\nnoi".toList, "se\nB\npartial".toList] =
      Except.ok ["Hello".toList, " world".toList] := by
  have h := (c2_stream_decode
      (fun l => if isBlankLine l then none
        else if l = "A".toList then some "Hello".toList
        else if l = "B".toList then some " world".toList
        else none)
      200 ["A\nnoi".toList, "se\nB\npartial".toList]
      (fun l hl => by simp [hl])).1 (by decide)
  rw [h.1]
  rfl

/-- C5: `getChatSessions` returns the empty list when the stored value is
absent or fails to parse as the expected JSON, and on success normalizes
every raw session — ISO timestamp strings become instants via the date
parser and a missing `isActive` defaults to `false`. -/
theorem c5_listSessions_degrades (parse : String → Option (List RawSession))
    (parseDate : String → Int) :
    getChatSessions parse parseDate none = [] ∧
    (∀ d, parse d = none → getChatSessions parse parseDate (some d) = []) ∧
    (∀ d raws, parse d = some raws →
      getChatSessions parse parseDate (some d) =
        raws.map (normalizeRawSession parseDate)) ∧
    (∀ r : RawSession,
      (normalizeRawSession parseDate r).isActive = r.isActive.getD false ∧
      (normalizeRawSession parseDate r).createdAt = parseDate r.createdAt ∧
      (normalizeRawSession parseDate r).updatedAt = parseDate r.updatedAt ∧
      ∀ m : RawMessage,
        (normalizeRawMessage parseDate m).timestamp = parseDate m.timestamp) := by
  refine ⟨rfl, fun d hd => ?_, fun d raws hd => ?_, fun r => ⟨rfl, rfl, rfl, fun m => rfl⟩⟩
  · rw [getChatSessions, hd]
  · rw [getChatSessions, hd]

/-- Witness for C5: corrupt storage (a parser that rejects the stored
string) yields `[]`, and a concrete raw session with `isActive` absent
normalizes to an inactive session with parsed timestamps. -/
theorem c5_listSessions_degrades_witness :
    getChatSessions (fun _ => none) (fun _ => 7) (some "corruptdata") = [] ∧
    (normalizeRawSession (fun _ => 7)
      ⟨"a", "t", [], "m", "2024-01-01", "2024-01-02", none, false, []⟩).isActive
      = false :=
  ⟨(c5_listSessions_degrades (fun _ => none) (fun _ => 7)).2.1 "corruptdata" rfl,
    by
      have h := ((c5_listSessions_degrades (fun _ => none) (fun _ => 7)).2.2.2
        ⟨"a", "t", [], "m", "2024-01-01", "2024-01-02", none, false, []⟩).1
      rw [h]
      rfl⟩

/-- C9: chat title generation keeps the first four space-separated words,
appending `"..."` exactly when the message has more than four words: the
two cited inputs evaluate as stated, a message of at most four words is
returned unchanged, and a longer one is truncated to its first four words
plus the ellipsis. -/
theorem c9_generateChatTitle (s : String) :
    generateChatTitle "What is the capital of France please" =
      "What is the capital..." ∧
    generateChatTitle "Hi there" = "Hi there" ∧
    ((splitChar ' ' s.toList).length ≤ 4 → generateChatTitle s = s) ∧
    (4 < (splitChar ' ' s.toList).length →
      generateChatTitle s =
        ⟨joinChar ' ' ((splitChar ' ' s.toList).take 4) ++ "...".toList⟩) := by
  refine ⟨by rfl, by rfl, generateChatTitle_short, fun hlong => ?_⟩
  rw [generateChatTitle, if_pos hlong]

/-- Witness for C9: a five-word message is truncated with the ellipsis. -/
theorem c9_generateChatTitle_witness :
    generateChatTitle "one two three four five" = "one two three four..." := by
  have h := (c9_generateChatTitle "one two three four five").2.2.2 (by decide)
  rw [h]
  rfl

/-- C10: `getChatStats` reports `totalTokens` as exactly 50 per message
counted across all sessions, an empty `favoriteModel` (and no error) on
an empty session list, and a `dailyUsage` sequence of exactly 30
entries. -/
theorem c10_getChatStats (isoDay : Int → String) (subDays : Int → Nat → Int)
    (now : Int) (sessions : List Session) :
    (getChatStats isoDay subDays now sessions).totalTokens =
      (getChatStats isoDay subDays now sessions).totalMessages * 50 ∧
    (getChatStats isoDay subDays now sessions).totalMessages =
      (sessions.map (fun s => s.messages.length)).sum ∧
    (sessions = [] →
      (getChatStats isoDay subDays now sessions).favoriteModel = "") ∧
    (getChatStats isoDay subDays now sessions).dailyUsage.length = 30 := by
  refine ⟨rfl, ?_, fun he => ?_, ?_⟩
  · show sessions.foldl (fun sum s => sum + s.messages.length) 0 = _
    rw [foldl_add_length, Nat.zero_add]
  · subst he
    rfl
  · show ((List.range 30).map _).length = 30
    rw [List.length_map, List.length_range]

/-- Witness for C10: the empty session list yields empty `favoriteModel`
and a 30-entry `dailyUsage`. -/
theorem c10_getChatStats_witness :
    (getChatStats (fun _ => "day") (fun n _ => n) 0 []).favoriteModel = "" ∧
    (getChatStats (fun _ => "day") (fun n _ => n) 0 []).dailyUsage.length = 30 :=
  ⟨(c10_getChatStats (fun _ => "day") (fun n _ => n) 0 []).2.2.1 rfl,
    (c10_getChatStats (fun _ => "day") (fun n _ => n) 0 []).2.2.2⟩

/-- C6 counterexample: the claim quantifies over every settings value
with a hosted provider and an empty key, but `createAPIConfig` validates
the endpoint first and checks mixed content second, so such settings with
an unparseable endpoint raise `InvalidEndpoint` — and, on an HTTPS page
with an `http://` endpoint, `MixedContentError` — not
`MissingCredential`.  (`new URL("not a url")` throws, as does
`new URL("")`; the instantiated URL check rejects exactly such strings.) -/
theorem c6_missing_credential_counterexample :
    createAPIConfig
      (fun u => jsStartsWith u "http://" || jsStartsWith u "https://") false
      { apiProvider := "openai", endpoint := "not a url", apiKey := "" } =
      Except.error ConfigError.invalidEndpoint ∧
    createAPIConfig
      (fun u => jsStartsWith u "http://" || jsStartsWith u "https://") false
      { apiProvider := "openai", endpoint := "not a url", apiKey := "" } ≠
      Except.error ConfigError.missingCredential ∧
    createAPIConfig
      (fun u => jsStartsWith u "http://" || jsStartsWith u "https://") true
      { apiProvider := "openai", endpoint := "http://server.example", apiKey := "" } =
      Except.error ConfigError.mixedContent := by
  refine ⟨by rfl, ?_, by rfl⟩
  intro h
  rw [show createAPIConfig
      (fun u => jsStartsWith u "http://" || jsStartsWith u "https://") false
      { apiProvider := "openai", endpoint := "not a url", apiKey := "" } =
      Except.error ConfigError.invalidEndpoint from rfl] at h
  exact ConfigError.noConfusion (Except.error.inj h)

/-- C6 (amended): provided the endpoint passes URL validation and is not
rejected by the mixed-content check, a hosted provider
(`openai`/`anthropic`) with an empty or whitespace-only key makes
`createAPIConfig` raise `MissingCredential` — before any network call,
since `createAPIConfig` performs none — while the local provider
(`ollama`) requires no credential and succeeds with an empty key. -/
theorem c6_missing_credential (validURL : String → Bool) (httpsPage : Bool)
    (st : AppSettings)
    (hvalid : validURL st.endpoint = true)
    (hmixed : ¬(httpsPage = true ∧ jsStartsWith st.endpoint "http://" = true)) :
    ((st.apiProvider = "openai" ∨ st.apiProvider = "anthropic") →
      jsTrim st.apiKey = "" →
      createAPIConfig validURL httpsPage st =
        Except.error ConfigError.missingCredential) ∧
    (st.apiProvider = "ollama" →
      createAPIConfig validURL httpsPage st =
        Except.ok
          { provider := "ollama", endpoint := st.endpoint, apiKey := none,
            timeout := 20000,
            headers := [("Content-Type", "application/json")] }) := by
  have hmix : (httpsPage && jsStartsWith st.endpoint "http://") = false := by
    cases hh : httpsPage with
    | false => rfl
    | true =>
      cases hs : jsStartsWith st.endpoint "http://" with
      | false => rfl
      | true => exact absurd ⟨hh, hs⟩ hmixed
  constructor
  · intro hhosted hkey
    have hprov : (st.apiProvider != "ollama") = true := by
      rcases hhosted with h | h <;> simp [h]
    rw [createAPIConfig, hvalid, hmix]
    simp [hprov, hkey]
  · intro hollama
    rw [createAPIConfig, hvalid, hmix]
    simp [hollama, getProviderHeaders]

/-- Witness for C6 (amended): a whitespace-only key for the hosted
provider fails with `MissingCredential`; the local provider with an empty
key succeeds. -/
theorem c6_missing_credential_witness :
    createAPIConfig (fun _ => true) false
      { apiProvider := "openai", endpoint := "https://api.example.com",
        apiKey := "   " } =
      Except.error ConfigError.missingCredential ∧
    createAPIConfig (fun _ => true) false
      { apiProvider := "ollama", endpoint := "http://localhost:11434",
        apiKey := "" } =
      Except.ok
        { provider := "ollama", endpoint := "http://localhost:11434",
          apiKey := none, timeout := 20000,
          headers := [("Content-Type", "application/json")] } :=
  ⟨(c6_missing_credential (fun _ => true) false
      { apiProvider := "openai", endpoint := "https://api.example.com",
        apiKey := "   " } rfl (by simp)).1 (Or.inl rfl) (by decide),
    (c6_missing_credential (fun _ => true) false
      { apiProvider := "ollama", endpoint := "http://localhost:11434",
        apiKey := "" } rfl (by simp)).2 rfl⟩

/-- C7: in a browser context over HTTPS, a (URL-valid) endpoint starting
with `http://` makes both `createAPIConfig` and the equivalent validation
phase of `testConnection` fail with `MixedContentError`; both checks run
before any network request is constructed. -/
theorem c7_mixed_content (validURL : String → Bool) (st : AppSettings)
    (provider endpoint : String) (apiKey : Option String)
    (hv1 : validURL st.endpoint = true)
    (hs1 : jsStartsWith st.endpoint "http://" = true)
    (hv2 : validURL endpoint = true)
    (hs2 : jsStartsWith endpoint "http://" = true) :
    createAPIConfig validURL true st = Except.error ConfigError.mixedContent ∧
    testConnectionPrecheck validURL true provider endpoint apiKey =
      Except.error ConfigError.mixedContent := by
  constructor
  · rw [createAPIConfig, hv1, hs1]
    rfl
  · rw [testConnectionPrecheck, hv2, hs2]
    rfl

/-- Witness for C7: the default local endpoint `http://localhost:11434`
on an HTTPS page, under a URL check accepting exactly `http(s)://`
prefixes. -/
theorem c7_mixed_content_witness :
    createAPIConfig
      (fun u => jsStartsWith u "http://" || jsStartsWith u "https://") true
      { apiProvider := "ollama", endpoint := "http://localhost:11434",
        apiKey := "" } =
      Except.error ConfigError.mixedContent ∧
    testConnectionPrecheck
      (fun u => jsStartsWith u "http://" || jsStartsWith u "https://") true
      "ollama" "http://localhost:11434" none =
      Except.error ConfigError.mixedContent :=
  c7_mixed_content
    (fun u => jsStartsWith u "http://" || jsStartsWith u "https://")
    { apiProvider := "ollama", endpoint := "http://localhost:11434",
      apiKey := "" }
    "ollama" "http://localhost:11434" none
    (by decide) (by decide) (by decide) (by decide)

/-- C8: the raw local-provider model entry
`{name: "llama2:7b", size: 3825819519}` normalizes to a descriptor with
`displayName = "llama2"` (tag stripped at the first `:`),
`parameters = "7B"` (from the `7b` substring), `size = "3.56 GB"`
(binary-prefixed, two decimals) and `contextLength = 4096`. -/
theorem c8_model_normalization :
    (normalizeOllamaModel 0 0
      ⟨some "llama2:7b", none, none, some 3825819519, none, none⟩).displayName =
      "llama2" ∧
    (normalizeOllamaModel 0 0
      ⟨some "llama2:7b", none, none, some 3825819519, none, none⟩).parameters =
      "7B" ∧
    (normalizeOllamaModel 0 0
      ⟨some "llama2:7b", none, none, some 3825819519, none, none⟩).size =
      "3.56 GB" ∧
    (normalizeOllamaModel 0 0
      ⟨some "llama2:7b", none, none, some 3825819519, none, none⟩).contextLength =
      4096 := by
  have hlog : Nat.log 1024 3825819519 = 3 :=
    Nat.log_eq_of_pow_le_of_lt_pow (by norm_num) (by norm_num)
  refine ⟨by rfl, by rfl, ?_, by rfl⟩
  show formatBytes 3825819519 = "3.56 GB"
  rw [formatBytes]
  norm_num [hlog]
  rfl

end OllamaApp

